import Mathlib

/-!
Verification development for a WiredTiger source slice: the transactional KV
reference model (exercised by the `test_checkpoint` test), the block-manager
read path and block cursor (`src/cursor/cur_block.c`), and the `bt_alloc`
page allocator (exercised by `test_bt_alloc.cpp`).

Components whose implementation is not part of the slice (the KV model
library and the allocator) are modelled from the specification; each such
definition carries a doc comment saying so.
-/

namespace WT

/-! ## Transactional KV model -/

/-- Modelled from the spec: timestamps are unsigned 64-bit logical clocks with
`NONE = 0`; the model never exercises wraparound, so we use `Nat`. -/
abbrev Timestamp := Nat

/-- Modelled from the spec: transaction state machine
`active → (prepared?) → {committed | aborted}`. -/
inductive TxnState where
  | active
  | prepared
  | committed
  | aborted
deriving DecidableEq

/-- Modelled from the spec: a committed Update
`{ txn_id, commit_ts, durable_ts, value, state }`; only committed updates are
kept in the database history, so the state field is implicit. -/
structure KVUpdate where
  key : String
  value : String
  commitTs : Timestamp
  durableTs : Timestamp
deriving DecidableEq

/-- Modelled from the spec: transaction
`{ id, state, writes[], prepare_ts? }` (`prepare_ts = 0` when not prepared). -/
structure KVTxn where
  id : Nat
  state : TxnState
  writes : List (String × String)
  prepareTs : Timestamp
deriving DecidableEq

/-- Modelled from the spec: the database
`{ tables, stable_ts, checkpoints, active_txns }`; one table suffices for the
slice, and checkpoints are plain values of `KVCheckpoint`. `stable = 0` means
the stable timestamp was never set. -/
structure KVDatabase where
  committed : List KVUpdate
  stable : Timestamp
  txns : List KVTxn
  nextId : Nat
deriving DecidableEq

/-- Modelled from the spec: a checkpoint is an immutable snapshot
`{ stable_ts_at_creation, visible set }`; we snapshot the committed history. -/
structure KVCheckpoint where
  snapshot : List KVUpdate
  stableAt : Timestamp
deriving DecidableEq

/-- Modelled from the spec: illegal transaction transitions surface as the
dedicated abort condition the harness observes as
`wiredtiger_abort_exception`. -/
inductive ModelError where
  | wiredtigerAbort
  | illegalState
deriving DecidableEq

def emptyDatabase : KVDatabase :=
  { committed := [], stable := 0, txns := [], nextId := 0 }

/-- Modelled from the spec: `begin_transaction` creates a fresh active
transaction and returns its id. -/
def beginTransaction (db : KVDatabase) : KVDatabase × Nat :=
  ({ db with
      txns := { id := db.nextId, state := .active, writes := [], prepareTs := 0 } :: db.txns,
      nextId := db.nextId + 1 },
    db.nextId)

def findTxn (db : KVDatabase) (tid : Nat) : Option KVTxn :=
  db.txns.find? (fun t => t.id == tid)

def setTxn (db : KVDatabase) (tid : Nat) (t : KVTxn) : KVDatabase :=
  { db with txns := db.txns.map (fun u => if u.id == tid then t else u) }

/-- Modelled from the spec: `insert` records a pending write; a prepared or
terminated transaction may not insert new writes (I4). -/
def insertTxn (db : KVDatabase) (tid : Nat) (k v : String) :
    Except ModelError KVDatabase :=
  match findTxn db tid with
  | none => .error .illegalState
  | some t =>
    if t.state = .active then
      .ok (setTxn db tid { t with writes := (k, v) :: t.writes })
    else
      .error .wiredtigerAbort

/-- Modelled from the spec: `set_stable_timestamp(T)`: if `T > current`,
accept; else silently reject (I3). -/
def setStableTimestamp (db : KVDatabase) (ts : Timestamp) : KVDatabase :=
  if db.stable < ts then { db with stable := ts } else db

/-- Modelled from the spec: the model exposes the stable timestamp. -/
def stableTimestamp (db : KVDatabase) : Timestamp := db.stable

/-- Modelled from the spec: `prepare(ts)` moves an active transaction to the
prepared state; preparing at or below the stable timestamp is an illegal
transition (witness: with `stable_ts = 60`, `prepare(60)` aborts). -/
def prepareTxn (db : KVDatabase) (tid : Nat) (ts : Timestamp) :
    Except ModelError KVDatabase :=
  match findTxn db tid with
  | none => .error .illegalState
  | some t =>
    if t.state ≠ .active then .error .wiredtigerAbort
    else if ts ≤ db.stable then .error .wiredtigerAbort
    else .ok (setTxn db tid { t with state := .prepared, prepareTs := ts })

/-- Modelled from the spec: `commit(cts, dts)`. A prepared transaction must
have `cts ≥ prepare_ts` and `cts ≥ stable_ts`, else the dedicated abort
condition is raised and the transaction is left as it was. Committing moves
the writes into the committed history at `cts`. -/
def commitTxn (db : KVDatabase) (tid : Nat) (cts dts : Timestamp) :
    Except ModelError KVDatabase :=
  match findTxn db tid with
  | none => .error .illegalState
  | some t =>
    match t.state with
    | .active =>
      .ok { setTxn db tid { t with state := .committed } with
              committed :=
                (t.writes.reverse.map
                  (fun p => { key := p.1, value := p.2, commitTs := cts, durableTs := dts }))
                  ++ db.committed }
    | .prepared =>
      if cts < t.prepareTs ∨ cts < db.stable then .error .wiredtigerAbort
      else
        .ok { setTxn db tid { t with state := .committed } with
                committed :=
                  (t.writes.reverse.map
                    (fun p => { key := p.1, value := p.2, commitTs := cts, durableTs := dts }))
                    ++ db.committed }
    | _ => .error .wiredtigerAbort

/-- Modelled from the spec: `rollback` aborts an active or prepared
transaction, discarding its writes. -/
def rollbackTxn (db : KVDatabase) (tid : Nat) : Except ModelError KVDatabase :=
  match findTxn db tid with
  | none => .error .illegalState
  | some t =>
    if t.state = .active ∨ t.state = .prepared then
      .ok (setTxn db tid { t with state := .aborted, writes := [] })
    else
      .error .wiredtigerAbort

/-- Modelled from the spec: an update is visible to a reader of key `k`
bounded by `bound` when it is for that key and its commit timestamp does not
exceed the bound (no bound for a "latest" reader). -/
def eligB (k : String) (bound : Option Timestamp) (u : KVUpdate) : Bool :=
  u.key == k && (match bound with | none => true | some b => decide (u.commitTs ≤ b))

/-- One step of the fold selecting the visible update with the greatest
commit timestamp. -/
def bestStep (k : String) (bound : Option Timestamp)
    (best : Option KVUpdate) (u : KVUpdate) : Option KVUpdate :=
  if eligB k bound u then
    match best with
    | none => some u
    | some b => if b.commitTs < u.commitTs then some u else some b
  else best

/-- Modelled from the spec: the committed Update for `k` with the greatest
`commit_ts`, optionally bounded above by `bound`. -/
def bestUpdate (upds : List KVUpdate) (k : String) (bound : Option Timestamp) :
    Option KVUpdate :=
  upds.foldl (bestStep k bound) none

/-- Modelled from the spec: a reader at `read_ts = ts` sees the committed
Update with the greatest `commit_ts ≤ ts`. -/
def getAt (upds : List KVUpdate) (k : String) (ts : Timestamp) : Option String :=
  (bestUpdate upds k (some ts)).map (fun u => u.value)

/-- Modelled from the spec: a reader with "latest" sees the greatest committed
Update, with no timestamp bound. -/
def getLatest (upds : List KVUpdate) (k : String) : Option String :=
  (bestUpdate upds k none).map (fun u => u.value)

/-- Modelled from the spec: `create_checkpoint` snapshots the committed
history and records `stable_ts_at_creation` (I5: fixed at creation). -/
def createCheckpoint (db : KVDatabase) : KVCheckpoint :=
  { snapshot := db.committed, stableAt := db.stable }

/-- Modelled from the spec: checkpoint read: the committed value with the
greatest `commit_ts ≤ stable_ts_at_creation`; a checkpoint created before the
stable timestamp was ever set sees all committed data with no bound. -/
def ckptGet (c : KVCheckpoint) (k : String) : Option String :=
  if c.stableAt = 0 then getLatest c.snapshot k else getAt c.snapshot k c.stableAt

/-- The spec's words for a bounded read: `r` is the value of a committed
update for `k` with `commit_ts ≤ S` whose commit timestamp is greatest among
such updates, or `r` is `NONE` and no committed update for `k` has
`commit_ts ≤ S`. -/
def isGreatestVisible (upds : List KVUpdate) (k : String) (S : Timestamp)
    (r : Option String) : Prop :=
  (∃ u, u ∈ upds ∧ u.key = k ∧ u.commitTs ≤ S ∧ r = some u.value ∧
      ∀ u', u' ∈ upds → u'.key = k → u'.commitTs ≤ S → u'.commitTs ≤ u.commitTs) ∨
  (r = none ∧ ∀ u, u ∈ upds → u.key = k → ¬ u.commitTs ≤ S)

/-- The spec's words for a "latest" read: `r` is the value of a committed
update for `k` whose commit timestamp is greatest, with no timestamp bound,
or `r` is `NONE` and there is no committed update for `k`. -/
def isGreatestCommitted (upds : List KVUpdate) (k : String) (r : Option String) : Prop :=
  (∃ u, u ∈ upds ∧ u.key = k ∧ r = some u.value ∧
      ∀ u', u' ∈ upds → u'.key = k → u'.commitTs ≤ u.commitTs) ∨
  (r = none ∧ ∀ u, u ∈ upds → u.key ≠ k)

/-! ### Concrete runs of the `test_checkpoint` scenarios -/

/-- Scenario 1 of `test_checkpoint`: two commits at 10 and 20, a checkpoint
before the stable timestamp is set, then `set_stable_timestamp(15)` and an
unnamed checkpoint, then a commit at 30; returns the six checkpoint reads. -/
def scenario1 : Except ModelError
    (Option String × Option String × Option String ×
     Option String × Option String × Option String) := do
  let db := emptyDatabase
  let (db, t1) := beginTransaction db
  let db ← insertTxn db t1 "Key 1" "Value 1"
  let db ← commitTxn db t1 10 10
  let (db, t2) := beginTransaction db
  let db ← insertTxn db t2 "Key 2" "Value 2"
  let db ← commitTxn db t2 20 20
  let ckpt1 := createCheckpoint db
  let db := setStableTimestamp db 15
  let ckpt := createCheckpoint db
  let (db, t3) := beginTransaction db
  let db ← insertTxn db t3 "Key 3" "Value 3"
  let db ← commitTxn db t3 30 30
  let _ := db
  pure (ckptGet ckpt1 "Key 1", ckptGet ckpt1 "Key 2", ckptGet ckpt1 "Key 3",
        ckptGet ckpt "Key 1", ckptGet ckpt "Key 2", ckptGet ckpt "Key 3")

/-- Scenario 2 of `test_checkpoint`: two concurrent transactions write Key 4
and Key 5; only the first commits (at 40) before `set_stable_timestamp(40)`
and checkpoint `ckpt2`; the second commits later at 50. Returns the two
checkpoint reads, evaluated after the second commit, plus a live read at 50
showing Key 5 did commit. -/
def scenario2 : Except ModelError (Option String × Option String × Option String) := do
  let db := emptyDatabase
  let (db, t1) := beginTransaction db
  let (db, t2) := beginTransaction db
  let db ← insertTxn db t1 "Key 4" "Value 4"
  let db ← insertTxn db t2 "Key 5" "Value 5"
  let db ← commitTxn db t1 40 40
  let db := setStableTimestamp db 40
  let ckpt2 := createCheckpoint db
  let db ← commitTxn db t2 50 50
  pure (ckptGet ckpt2 "Key 4", ckptGet ckpt2 "Key 5", getAt db.committed "Key 5" 50)

/-- Scenario 4 of `test_checkpoint`: moving the stable timestamp backwards
fails silently. -/
def scenario4 : Timestamp × Timestamp :=
  let db := setStableTimestamp emptyDatabase 60
  let db := setStableTimestamp db 50
  (stableTimestamp db, (createCheckpoint db).stableAt)

/-- Scenario 5 of `test_checkpoint`: insert, `prepare(62)`,
`set_stable_timestamp(62)`; the database-and-transaction pair right before the
illegal `commit(60, 62)`. -/
def scenario5 : Except ModelError (KVDatabase × Nat) := do
  let db := emptyDatabase
  let (db, t1) := beginTransaction db
  let db ← insertTxn db t1 "Key 1" "Value 1"
  let db ← prepareTxn db t1 62
  let db := setStableTimestamp db 62
  pure (db, t1)

/-- The illegal-prepare scenario of `test_checkpoint`: with `stable_ts = 60`,
an active transaction inserts and the pair is returned right before the
illegal `prepare(60)`. -/
def scenarioPrep : Except ModelError (KVDatabase × Nat) := do
  let db := setStableTimestamp emptyDatabase 60
  let (db, t1) := beginTransaction db
  let db ← insertTxn db t1 "Key 1" "Value 1"
  pure (db, t1)

/-! ## Block manager read path (`__wt_block_read_off`, `__bm_corrupt_dump`)

The buffer is a byte list (each entry `< 256` in intended use). The checksum
function `__wt_checksum` and the on-disk header layout are external to the
slice; the checksum is a parameter, and the header layout is modelled from the
spec ("a fixed-width header with fields including `disk_size: u32` and
`checksum: u32`", "a flag bit indicates whether checksum covers the whole
block or only its `COMPRESS_SKIP` prefix"): the block header follows the
28-byte page header, so `checksum` occupies bytes 32..35 (little-endian) and
the flags byte (bit `0x1` = `WT_BLOCK_DATA_CKSUM`) is byte 36;
`WT_BLOCK_COMPRESS_SKIP` is 64. Byte swapping is the identity on a host whose
endianness matches the disk format, which is how we model it. -/

/-- Little-endian 32-bit read at `off` (missing bytes read as 0). -/
def le32get (bs : List Nat) (off : Nat) : Nat :=
  bs.getD off 0 % 256 + 256 * (bs.getD (off + 1) 0 % 256) +
    65536 * (bs.getD (off + 2) 0 % 256) + 16777216 * (bs.getD (off + 3) 0 % 256)

/-- `blk->checksum = 0`: zero the header checksum field (bytes 32..35). -/
def zeroHeaderChecksum (bs : List Nat) : List Nat :=
  bs.enum.map (fun p => if 32 ≤ p.1 ∧ p.1 < 36 then 0 else p.2)

/-- The header's `WT_BLOCK_DATA_CKSUM` flag bit. -/
def hdrDataCksum (bs : List Nat) : Bool :=
  bs.getD 36 0 % 2 == 1

/-- `WT_BLOCK_COMPRESS_SKIP`, the checksummed prefix length when
`WT_BLOCK_DATA_CKSUM` is not set. -/
def compressSkip : Nat := 64

/-- The inputs `__wt_block_read_off` draws on: the block's configured
allocation size and verify flag, the session's quiet-corruption flag, the
connection's chunk-cache configuration, whether the chunk cache has the block
(`ENOSPC` and misses both fall through to the direct read), the bytes the
chunk cache would deliver, and the bytes a direct read of the file returns. -/
structure ReadEnv where
  allocsize : Nat
  verify : Bool
  quiet : Bool
  chunkcacheConfigured : Bool
  chunkHit : Bool
  chunkBytes : List Nat
  diskBytes : List Nat
deriving DecidableEq

/-- Error codes surfaced by the read path: `EINVAL` for an undersized block,
`WT_ERROR` for recoverable corruption, `WT_PANIC` for fatal corruption. -/
inductive ReadErr where
  | einval
  | wtError
  | wtPanic
deriving DecidableEq

/-- What a call to `__wt_block_read_off` does: the returned buffer or error,
whether `__bm_corrupt_dump` ran, the 1KB chunks it dumped, whether
`WT_CONN_DATA_CORRUPTION` was set, and the bytes left in the buffer. -/
structure ReadOutcome where
  result : Except ReadErr (List Nat)
  dumped : Bool
  dumpChunks : List (List Nat)
  corruptionFlag : Bool
  finalBuf : List Nat

/-- `__bm_corrupt_dump` chunking, fueled structural recursion: split the
buffer into 1024-byte chunks (the last may be shorter); an empty buffer dumps
no chunks. -/
def chunksOfAux : Nat → List Nat → List (List Nat)
  | 0, _ => []
  | _, [] => []
  | fuel + 1, bs => bs.take 1024 :: chunksOfAux fuel (bs.drop 1024)

/-- The 1KB chunks `__bm_corrupt_dump` emits for a buffer. -/
def chunksOf (bs : List Nat) : List (List Nat) :=
  chunksOfAux bs.length bs

/-- The corruption tail of `__wt_block_read_off`: dump the buffer (unless the
session asked for quiet corruption), set `WT_CONN_DATA_CORRUPTION`, and return
`WT_ERROR` when in verify or quiet-corruption mode, else panic. -/
def corruptOutcome (env : ReadEnv) (buf : List Nat) : ReadOutcome :=
  { result := if env.verify || env.quiet then .error .wtError else .error .wtPanic,
    dumped := !env.quiet,
    dumpChunks := if env.quiet then [] else chunksOf buf,
    corruptionFlag := true,
    finalBuf := buf }

/-- The bytes the first read places in the buffer: from the chunk cache on a
hit, otherwise (miss or `ENOSPC`) from a direct read of `size` bytes. -/
def firstReadBytes (env : ReadEnv) (size : Nat) : List Nat :=
  (if env.chunkcacheConfigured && env.chunkHit then env.chunkBytes else env.diskBytes).take size

/-- `check_size`: the whole `size` when the header declares
`WT_BLOCK_DATA_CKSUM`, else the first `WT_BLOCK_COMPRESS_SKIP` bytes. -/
def checkSizeOf (buf : List Nat) (size : Nat) : Nat :=
  if hdrDataCksum buf then size else compressSkip

/-- The bytes left in the buffer when the full-checksum comparison fails:
when the chunk cache is configured the external entry is evicted and a direct
re-read overwrites the buffer; otherwise the zeroed first read remains. -/
def retryBuf (env : ReadEnv) (size : Nat) : List Nat :=
  if env.chunkcacheConfigured then env.diskBytes.take size
  else zeroHeaderChecksum (firstReadBytes env size)

/-- `__wt_block_read_off`: reject undersized blocks with `EINVAL`; read via
chunk cache or directly; compare the swapped header checksum with the
expected checksum from the address cookie; on match zero the header checksum
field and recompute over `check_size` bytes; on a full match return the
buffer. Otherwise, when the chunk cache is configured, evict the external
entry and re-read directly — the code then falls through to the corruption
tail without re-verifying the re-read bytes. -/
def blockReadOff (env : ReadEnv) (cksumF : List Nat → Nat) (expected size : Nat) :
    ReadOutcome :=
  if size < env.allocsize then
    { result := .error .einval, dumped := false, dumpChunks := [],
      corruptionFlag := false, finalBuf := [] }
  else if le32get (firstReadBytes env size) 32 = expected then
    if cksumF ((zeroHeaderChecksum (firstReadBytes env size)).take
        (checkSizeOf (firstReadBytes env size) size)) = expected then
      { result := .ok (zeroHeaderChecksum (firstReadBytes env size)), dumped := false,
        dumpChunks := [], corruptionFlag := false,
        finalBuf := zeroHeaderChecksum (firstReadBytes env size) }
    else
      corruptOutcome env (retryBuf env size)
  else
    corruptOutcome env (firstReadBytes env size)

/-! ## Block cursor batch walk (`__curblock_next_raw_n_walk`,
`__curblock_prev_raw_n_walk`)

The B-tree advances (`__wt_btcur_next` / `__wt_btcur_prev` for the first
advance, `__wt_btcur_next_on_page` / `__wt_btcur_prev_on_page` for the
intra-page steps) are external; each call either positions the cursor on a
key/value pair (optionally asking for a key copy via
`WT_CURSTD_BLOCK_COPY_KEY`) or fails with a WiredTiger return code. The two
C walk functions are textually identical apart from the direction of those
external calls, so they share the loop here; the direction lives in the
streams of step results. -/

/-- One B-tree advance: a produced pair, or a failing return code. -/
inductive StepRes where
  | ok (copyKey : Bool) (key value : Nat)
  | fail (code : Int)
deriving DecidableEq

def WT_NOTFOUND : Int := -31803
def WT_PREPARE_CONFLICT : Int := -31808

/-- The `for (; count < MAX_BLOCK_ITEM; ++count)` loop shared by the two
walks: each intra-page step either appends a pair, ends the batch cleanly on
`WT_NOTFOUND`/`WT_PREPARE_CONFLICT`, or propagates its error; an exhausted
stream is the tree reporting `WT_NOTFOUND`. Returns the pairs and `*n`. -/
def walkLoop (maxItems count : Nat) (steps : List StepRes) (acc : List (Nat × Nat)) :
    Except Int (List (Nat × Nat) × Nat) :=
  if maxItems ≤ count then .ok (acc.reverse, count)
  else
    match steps with
    | [] => .ok (acc.reverse, count)
    | .ok _ k v :: rest => walkLoop maxItems (count + 1) rest ((k, v) :: acc)
    | .fail c :: _ =>
      if c = WT_NOTFOUND ∨ c = WT_PREPARE_CONFLICT then .ok (acc.reverse, count)
      else .error c

/-- `__curblock_next_raw_n_walk`: the first advance's errors (including
`WT_NOTFOUND`) propagate via `WT_ERR`; on success the pair is recorded, and
the intra-page loop fills the rest of the batch. -/
def nextRawNWalk (maxItems : Nat) (first : StepRes) (steps : List StepRes) :
    Except Int (List (Nat × Nat) × Nat) :=
  match first with
  | .ok _ k v => walkLoop maxItems 1 steps [(k, v)]
  | .fail c => .error c

/-- `__curblock_prev_raw_n_walk`: identical to the forward walk with the
reverse-direction external advances supplying the streams. -/
def prevRawNWalk (maxItems : Nat) (first : StepRes) (steps : List StepRes) :
    Except Int (List (Nat × Nat) × Nat) :=
  match first with
  | .ok _ k v => walkLoop maxItems 1 steps [(k, v)]
  | .fail c => .error c

/-! ## Page allocator (`bt_alloc`), modelled from the spec -/

/-- Modelled from the spec: a page handle is the region it lives in and the
bitmap mask of its slot. -/
structure BtPage where
  region : Nat
  bitMask : Nat
deriving DecidableEq

/-- Modelled from the spec: the allocator tracks the configured region byte
size and maximum region count, the current region count, and one free-slot
bitmap byte per region position (1 = free, `0xff` = fully free). -/
structure BtAllocator where
  regionSize : Nat
  regionCap : Nat
  regionCount : Nat
  regionMap : List Nat
deriving DecidableEq

/-- Modelled from the spec: out-of-capacity is a distinct error. -/
inductive AllocErr where
  | noCapacity
  | badPage
deriving DecidableEq

/-- Modelled from the spec: `bt_alloc_create(region_size, region_count)` —
no regions yet, every bitmap byte fully free. -/
def btAllocCreate (regionSize regionCap : Nat) : BtAllocator :=
  { regionSize := regionSize, regionCap := regionCap, regionCount := 0,
    regionMap := List.replicate regionCap 0xff }

/-- The lowest set bit of a byte, as a mask (0 when the byte is 0). -/
def lowBitMask (b : Nat) : Nat := b - (b &&& (b - 1))

/-- First region index `< n` whose bitmap byte has a free slot. -/
def findFreeRegion (m : List Nat) (n : Nat) : Option Nat :=
  (List.range n).find? (fun i => m.getD i 0 ≠ 0)

/-- Modelled from the spec: `bt_alloc_page_alloc` — take a slot in the first
region with a free slot, or add a new region (failing with the capacity error
once `region_count` would exceed the configured maximum). -/
def btAllocPageAlloc (a : BtAllocator) (size : Nat) :
    Except AllocErr (BtAllocator × BtPage) :=
  let _ := size
  match findFreeRegion a.regionMap a.regionCount with
  | some i =>
    let b := a.regionMap.getD i 0
    let mask := lowBitMask b
    .ok ({ a with regionMap := a.regionMap.set i (b - mask) },
         { region := i, bitMask := mask })
  | none =>
    if a.regionCount < a.regionCap then
      let i := a.regionCount
      let b := a.regionMap.getD i 0xff
      let mask := lowBitMask b
      .ok ({ a with regionCount := a.regionCount + 1,
                    regionMap := a.regionMap.set i (b - mask) },
           { region := i, bitMask := mask })
    else .error .noCapacity

/-- Modelled from the spec: `bt_alloc_page_free` — return the slot to the
region's bitmap; a region with no occupied slots is released immediately
(`region_count` decreases, the bitmap byte stays `0xff`). -/
def btAllocPageFree (a : BtAllocator) (p : BtPage) : BtAllocator :=
  let b := a.regionMap.getD p.region 0 + p.bitMask
  let a' := { a with regionMap := a.regionMap.set p.region b }
  if b = 0xff then { a' with regionCount := a'.regionCount - 1 } else a'

/-- The `one_page_alloc` section of the dynamic-configuration test:
`create(4096, 128)`, `alloc_page(1000)`, `free_page`; observing
`region_count` and `region_map[0]` after each step. -/
def allocRoundTrip : Except AllocErr (Nat × Nat × Nat × Nat) := do
  let a0 := btAllocCreate 4096 128
  let (a1, p) ← btAllocPageAlloc a0 1000
  let a2 := btAllocPageFree a1 p
  pure (a1.regionCount, a1.regionMap.getD 0 0, a2.regionCount, a2.regionMap.getD 0 0)

/-! ## Sample states used by witnesses -/

/-- A database whose stable timestamp has been set. -/
def sampleStableDB : KVDatabase :=
  { committed := [{ key := "Key A", value := "Value A", commitTs := 3, durableTs := 3 }],
    stable := 5, txns := [], nextId := 0 }

/-- A database whose stable timestamp was never set. -/
def sampleUnsetDB : KVDatabase :=
  { committed := [{ key := "Key A", value := "Value A", commitTs := 3, durableTs := 3 }],
    stable := 0, txns := [], nextId := 0 }

/-- A prepared transaction, as left by `prepare(62)`. -/
def preparedT : KVTxn :=
  { id := 0, state := .prepared, writes := [("Key 1", "Value 1")], prepareTs := 62 }

/-- The database of scenario 5 right before the illegal commit. -/
def preparedDB : KVDatabase :=
  { committed := [], stable := 62, txns := [preparedT], nextId := 1 }

/-- An active transaction holding one write. -/
def activeT : KVTxn :=
  { id := 0, state := .active, writes := [("Key 1", "Value 1")], prepareTs := 0 }

/-- The database of the illegal-prepare scenario right before `prepare(60)`. -/
def activeDB : KVDatabase :=
  { committed := [], stable := 60, txns := [activeT], nextId := 1 }

/-! ## Concrete read environments used by block-manager claims -/

/-- A simple concrete checksum function for witnesses: the byte sum. -/
def listSum (bs : List Nat) : Nat := bs.foldl (fun a b => a + b) 0

/-- A read with no chunk cache whose disk bytes verify (all zeros, expected
checksum 0). -/
def cleanReadEnv : ReadEnv :=
  { allocsize := 1, verify := false, quiet := false, chunkcacheConfigured := false,
    chunkHit := false, chunkBytes := [], diskBytes := List.replicate 70 0 }

/-- A chunk-cache hit delivering stale bytes (header checksum matches the
expected 0 but the byte sum over the coverage is 1) while the disk holds
valid bytes. -/
def staleChunkEnv : ReadEnv :=
  { allocsize := 1, verify := false, quiet := false, chunkcacheConfigured := true,
    chunkHit := true, chunkBytes := 1 :: List.replicate 69 0,
    diskBytes := List.replicate 70 0 }

/-- The same configuration with a chunk-cache miss: the direct read serves
the valid disk bytes. -/
def freshChunkEnv : ReadEnv :=
  { staleChunkEnv with chunkHit := false }

/-- A corrupt direct read (byte sum 1 against expected 0) with the session's
quiet-corruption flag set. -/
def quietCorruptEnv : ReadEnv :=
  { allocsize := 1, verify := false, quiet := true, chunkcacheConfigured := false,
    chunkHit := false, chunkBytes := [], diskBytes := 1 :: List.replicate 69 0 }

/-- The same corrupt read without quiet corruption. -/
def loudCorruptEnv : ReadEnv :=
  { quietCorruptEnv with quiet := false }

/-! ## Properties of the visibility fold -/

lemma bestStep_none (k : String) (bound : Option Timestamp) (acc : Option KVUpdate)
    (u : KVUpdate) (h : bestStep k bound acc u = none) :
    acc = none ∧ eligB k bound u = false := by
  cases acc with
  | none =>
    by_cases he : eligB k bound u = true
    · simp [bestStep, he] at h
    · exact ⟨rfl, by simpa using he⟩
  | some b =>
    by_cases he : eligB k bound u = true
    · by_cases hlt : b.commitTs < u.commitTs <;> simp [bestStep, he, hlt] at h
    · simp [bestStep, he] at h

lemma bestStep_isElig (k : String) (bound : Option Timestamp) (acc : Option KVUpdate)
    (u r : KVUpdate) (hacc : ∀ b, acc = some b → eligB k bound b = true)
    (h : bestStep k bound acc u = some r) : eligB k bound r = true := by
  cases acc with
  | none =>
    by_cases he : eligB k bound u = true
    · simp [bestStep, he] at h
      exact h ▸ he
    · simp [bestStep, he] at h
  | some b =>
    by_cases he : eligB k bound u = true
    · by_cases hlt : b.commitTs < u.commitTs
      · simp [bestStep, he, hlt] at h
        exact h ▸ he
      · simp [bestStep, he, hlt] at h
        exact h ▸ hacc b rfl
    · simp [bestStep, he] at h
      exact h ▸ hacc b rfl

lemma bestStep_mem (k : String) (bound : Option Timestamp) (acc : Option KVUpdate)
    (u r : KVUpdate) (h : bestStep k bound acc u = some r) :
    r = u ∨ acc = some r := by
  cases acc with
  | none =>
    by_cases he : eligB k bound u = true
    · simp [bestStep, he] at h
      exact Or.inl h.symm
    · simp [bestStep, he] at h
  | some b =>
    by_cases he : eligB k bound u = true
    · by_cases hlt : b.commitTs < u.commitTs
      · simp [bestStep, he, hlt] at h
        exact Or.inl h.symm
      · simp [bestStep, he, hlt] at h
        exact Or.inr (by rw [h])
    · simp [bestStep, he] at h
      exact Or.inr (by rw [h])

lemma bestStep_ge_new (k : String) (bound : Option Timestamp) (acc : Option KVUpdate)
    (u : KVUpdate) (he : eligB k bound u = true) :
    ∃ r, bestStep k bound acc u = some r ∧ u.commitTs ≤ r.commitTs := by
  cases acc with
  | none => exact ⟨u, by simp [bestStep, he], le_refl _⟩
  | some b =>
    by_cases hlt : b.commitTs < u.commitTs
    · exact ⟨u, by simp [bestStep, he, hlt], le_refl _⟩
    · exact ⟨b, by simp [bestStep, he, hlt], Nat.le_of_not_lt hlt⟩

lemma bestStep_ge_acc (k : String) (bound : Option Timestamp) (u b' : KVUpdate)
    (acc : Option KVUpdate) (hacc : acc = some b') :
    ∃ r, bestStep k bound acc u = some r ∧ b'.commitTs ≤ r.commitTs := by
  subst hacc
  by_cases he : eligB k bound u = true
  · by_cases hlt : b'.commitTs < u.commitTs
    · exact ⟨u, by simp [bestStep, he, hlt], Nat.le_of_lt hlt⟩
    · exact ⟨b', by simp [bestStep, he, hlt], le_refl _⟩
  · exact ⟨b', by simp [bestStep, he], le_refl _⟩

lemma bestFold_spec (k : String) (bound : Option Timestamp) :
    ∀ (l : List KVUpdate) (acc : Option KVUpdate),
      (∀ b, acc = some b → eligB k bound b = true) →
      (List.foldl (bestStep k bound) acc l = none →
          acc = none ∧ ∀ u ∈ l, eligB k bound u = false) ∧
      (∀ r, List.foldl (bestStep k bound) acc l = some r →
          eligB k bound r = true ∧
          (∀ u ∈ l, eligB k bound u = true → u.commitTs ≤ r.commitTs) ∧
          (∀ b, acc = some b → b.commitTs ≤ r.commitTs) ∧
          (r ∈ l ∨ acc = some r)) := by
  intro l
  induction l with
  | nil =>
    intro acc hacc
    simp only [List.foldl_nil]
    constructor
    · intro h
      exact ⟨h, fun u hu => absurd hu (List.not_mem_nil u)⟩
    · intro r h
      refine ⟨hacc r h, fun u hu => absurd hu (List.not_mem_nil u), fun b hb => ?_, Or.inr h⟩
      rw [hb] at h
      injection h with h
      exact h ▸ le_refl _
  | cons u l ih =>
    intro acc hacc
    simp only [List.foldl_cons]
    have hacc' : ∀ b, bestStep k bound acc u = some b → eligB k bound b = true :=
      fun b hb => bestStep_isElig k bound acc u b hacc hb
    obtain ⟨ihn, ihs⟩ := ih (bestStep k bound acc u) hacc'
    constructor
    · intro h
      obtain ⟨hA, hl⟩ := ihn h
      obtain ⟨haccn, hue⟩ := bestStep_none k bound acc u hA
      refine ⟨haccn, fun u' hu' => ?_⟩
      rcases List.mem_cons.mp hu' with rfl | hu''
      · exact hue
      · exact hl u' hu''
    · intro r h
      obtain ⟨helig, hmaxl, hAle, hmem⟩ := ihs r h
      refine ⟨helig, ?_, ?_, ?_⟩
      · intro u' hu' he'
        rcases List.mem_cons.mp hu' with rfl | hu''
        · obtain ⟨b, hb, hub⟩ := bestStep_ge_new k bound acc u' he'
          exact le_trans hub (hAle b hb)
        · exact hmaxl u' hu'' he'
      · intro b' hb'
        obtain ⟨b, hb, hb'b⟩ := bestStep_ge_acc k bound u b' acc hb'
        exact le_trans hb'b (hAle b hb)
      · rcases hmem with hrl | hA
        · exact Or.inl (List.mem_cons_of_mem _ hrl)
        · rcases bestStep_mem k bound acc u r hA with rfl | haccr
          · exact Or.inl (List.mem_cons_self _ _)
          · exact Or.inr haccr

lemma getAt_isGreatestVisible (upds : List KVUpdate) (k : String) (S : Timestamp) :
    isGreatestVisible upds k S (getAt upds k S) := by
  have hspec := bestFold_spec k (some S) upds none (fun b hb => by cases hb)
  unfold isGreatestVisible
  cases h : List.foldl (bestStep k (some S)) none upds with
  | none =>
    right
    refine ⟨by simp [getAt, bestUpdate, h], ?_⟩
    intro u hu hk hle
    have hf := (hspec.1 h).2 u hu
    simp [eligB, hk, hle] at hf
  | some r =>
    left
    obtain ⟨helig, hmax, _, hmem⟩ := hspec.2 r h
    have hrmem : r ∈ upds := by
      rcases hmem with hm | hm
      · exact hm
      · simp at hm
    have hkey : r.key = k ∧ r.commitTs ≤ S := by
      simpa [eligB] using helig
    refine ⟨r, hrmem, hkey.1, hkey.2, by simp [getAt, bestUpdate, h], ?_⟩
    intro u' hu' hk' hle'
    exact hmax u' hu' (by simp [eligB, hk', hle'])

lemma getLatest_isGreatestCommitted (upds : List KVUpdate) (k : String) :
    isGreatestCommitted upds k (getLatest upds k) := by
  have hspec := bestFold_spec k none upds none (fun b hb => by cases hb)
  unfold isGreatestCommitted
  cases h : List.foldl (bestStep k none) none upds with
  | none =>
    right
    refine ⟨by simp [getLatest, bestUpdate, h], ?_⟩
    intro u hu hk
    have hf := (hspec.1 h).2 u hu
    simp [eligB, hk] at hf
  | some r =>
    left
    obtain ⟨helig, hmax, _, hmem⟩ := hspec.2 r h
    have hrmem : r ∈ upds := by
      rcases hmem with hm | hm
      · exact hm
      · simp at hm
    have hkey : r.key = k := by
      simpa [eligB] using helig
    refine ⟨r, hrmem, hkey, by simp [getLatest, bestUpdate, h], ?_⟩
    intro u' hu' hk'
    exact hmax u' hu' (by simp [eligB, hk'])

/-! ## Claims about the transactional KV model -/

/-- C1: a checkpoint created while the stable timestamp is set to `S` returns,
for every key, the committed value with the greatest `commit_ts ≤ S`; writes
of transactions not yet committed at creation are excluded even if they
commit later (scenario 2: `ckpt2` returns Value 4 for Key 4 and `NONE` for
Key 5 although Key 5's transaction later commits at 50). -/
theorem checkpoint_get_greatest_at_stable :
    (∀ (db : KVDatabase) (k : String), db.stable ≠ 0 →
        ckptGet (createCheckpoint db) k = getAt db.committed k db.stable ∧
        isGreatestVisible db.committed k db.stable (ckptGet (createCheckpoint db) k)) ∧
    scenario2 = .ok (some "Value 4", none, some "Value 5") := by
  refine ⟨fun db k h => ?_, by rfl⟩
  have he : ckptGet (createCheckpoint db) k = getAt db.committed k db.stable := by
    simp [ckptGet, createCheckpoint, h]
  exact ⟨he, he ▸ getAt_isGreatestVisible db.committed k db.stable⟩

theorem checkpoint_get_greatest_at_stable_witness :
    sampleStableDB.stable ≠ 0 ∧
    (ckptGet (createCheckpoint sampleStableDB) "Key A" =
        getAt sampleStableDB.committed "Key A" sampleStableDB.stable ∧
      isGreatestVisible sampleStableDB.committed "Key A" sampleStableDB.stable
        (ckptGet (createCheckpoint sampleStableDB) "Key A")) :=
  ⟨by decide, checkpoint_get_greatest_at_stable.1 sampleStableDB "Key A" (by decide)⟩

/-- C2: `set_stable_timestamp(T)` with `T` above the current stable timestamp
sets it; with `T` at or below it silently leaves the database unchanged (it
is total, so no error is raised); hence the stable timestamp never decreases,
and a checkpoint created after a rejected regression records the old value
(scenario 4: after `set(60); set(50)` the stable timestamp and the next
checkpoint's bound are both 60). -/
theorem set_stable_timestamp_monotone :
    (∀ (db : KVDatabase) (ts : Timestamp),
        (db.stable < ts → stableTimestamp (setStableTimestamp db ts) = ts) ∧
        (ts ≤ db.stable → setStableTimestamp db ts = db) ∧
        db.stable ≤ stableTimestamp (setStableTimestamp db ts) ∧
        (ts ≤ db.stable →
          (createCheckpoint (setStableTimestamp db ts)).stableAt = db.stable)) ∧
    scenario4 = (60, 60) := by
  constructor
  · intro db ts
    refine ⟨?_, ?_, ?_, ?_⟩
    · intro h
      simp [setStableTimestamp, stableTimestamp, h]
    · intro hle
      have hnot : ¬ db.stable < ts := Nat.not_lt.mpr hle
      simp [setStableTimestamp, hnot]
    · by_cases h : db.stable < ts
      · simp [setStableTimestamp, stableTimestamp, h]
        exact Nat.le_of_lt h
      · simp [setStableTimestamp, stableTimestamp, h]
    · intro hle
      have hnot : ¬ db.stable < ts := Nat.not_lt.mpr hle
      simp [setStableTimestamp, createCheckpoint, hnot]
  · rfl

theorem set_stable_timestamp_monotone_witness :
    emptyDatabase.stable < 3 ∧
    stableTimestamp (setStableTimestamp emptyDatabase 3) = 3 :=
  ⟨by decide, (set_stable_timestamp_monotone.1 emptyDatabase 3).1 (by decide)⟩

/-- C3: committing a prepared transaction with a commit timestamp below its
prepare timestamp or below the current stable timestamp raises the dedicated
abort condition instead of committing, and the transaction can then be rolled
back (scenario 5: prepare at 62, stable advanced to 62, `commit(60, 62)`
aborts and the rollback succeeds). -/
theorem prepared_commit_below_bounds_aborts :
    (∀ (db : KVDatabase) (tid : Nat) (t : KVTxn) (cts dts : Timestamp),
        findTxn db tid = some t → t.state = .prepared →
        (cts < t.prepareTs ∨ cts < db.stable) →
        commitTxn db tid cts dts = .error .wiredtigerAbort ∧
        (rollbackTxn db tid).isOk = true) ∧
    (scenario5.bind fun p => commitTxn p.1 p.2 60 62) = .error .wiredtigerAbort ∧
    (scenario5.bind fun p => rollbackTxn p.1 p.2).isOk = true := by
  refine ⟨fun db tid t cts dts hf hs hlt => ⟨?_, ?_⟩, by rfl, by rfl⟩
  · simp only [commitTxn, hf]
    rw [hs]
    simp [hlt]
  · simp [rollbackTxn, hf, hs, Except.isOk, Except.toBool]

theorem prepared_commit_below_bounds_aborts_witness :
    findTxn preparedDB 0 = some preparedT ∧ preparedT.state = .prepared ∧
    (60 < preparedT.prepareTs ∨ 60 < preparedDB.stable) ∧
    (commitTxn preparedDB 0 60 62 = .error .wiredtigerAbort ∧
      (rollbackTxn preparedDB 0).isOk = true) :=
  ⟨by rfl, by rfl, Or.inl (by decide),
    prepared_commit_below_bounds_aborts.1 preparedDB 0 preparedT 60 62 (by rfl) (by rfl)
      (Or.inl (by decide))⟩

/-- C4: a checkpoint created while the stable timestamp was never set returns,
for every key, the latest committed value with no timestamp bound
(scenario 1: `ckpt1` sees Key 1 committed at 10 and Key 2 committed at 20,
while the checkpoint created after `set_stable_timestamp(15)` sees Key 1 but
not Key 2). -/
theorem checkpoint_before_stable_set_sees_latest :
    (∀ (db : KVDatabase) (k : String), db.stable = 0 →
        ckptGet (createCheckpoint db) k = getLatest db.committed k ∧
        isGreatestCommitted db.committed k (ckptGet (createCheckpoint db) k)) ∧
    scenario1 = .ok (some "Value 1", some "Value 2", none,
                     some "Value 1", none, none) := by
  refine ⟨fun db k h => ?_, by rfl⟩
  have he : ckptGet (createCheckpoint db) k = getLatest db.committed k := by
    simp [ckptGet, createCheckpoint, h]
  exact ⟨he, he ▸ getLatest_isGreatestCommitted db.committed k⟩

theorem checkpoint_before_stable_set_sees_latest_witness :
    sampleUnsetDB.stable = 0 ∧
    (ckptGet (createCheckpoint sampleUnsetDB) "Key A" =
        getLatest sampleUnsetDB.committed "Key A" ∧
      isGreatestCommitted sampleUnsetDB.committed "Key A"
        (ckptGet (createCheckpoint sampleUnsetDB) "Key A")) :=
  ⟨by decide, checkpoint_before_stable_set_sees_latest.1 sampleUnsetDB "Key A" (by decide)⟩

/-- C10: preparing an active transaction with writes at a timestamp at or
below the current stable timestamp raises the dedicated abort condition
rather than moving it to the prepared state, and the transaction can then be
rolled back (with `stable_ts = 60`, `prepare(60)` aborts). -/
theorem prepare_at_or_below_stable_aborts :
    (∀ (db : KVDatabase) (tid : Nat) (t : KVTxn) (ts : Timestamp),
        findTxn db tid = some t → t.state = .active → t.writes ≠ [] →
        ts ≤ db.stable →
        prepareTxn db tid ts = .error .wiredtigerAbort ∧
        (rollbackTxn db tid).isOk = true) ∧
    (scenarioPrep.bind fun p => prepareTxn p.1 p.2 60) = .error .wiredtigerAbort ∧
    (scenarioPrep.bind fun p => rollbackTxn p.1 p.2).isOk = true := by
  refine ⟨fun db tid t ts hf hs hw hle => ⟨?_, ?_⟩, by rfl, by rfl⟩
  · simp [prepareTxn, hf, hs, hle]
  · simp [rollbackTxn, hf, hs, Except.isOk, Except.toBool]

/-! ## Properties of the corruption dump chunking -/

lemma chunksOfAux_nil (fuel : Nat) : chunksOfAux fuel [] = [] := by
  cases fuel <;> rfl

lemma chunksOfAux_flatten : ∀ (fuel : Nat) (bs : List Nat), bs.length ≤ fuel →
    (chunksOfAux fuel bs).flatten = bs := by
  intro fuel
  induction fuel with
  | zero =>
    intro bs h
    have hbs : bs = [] := List.eq_nil_of_length_eq_zero (Nat.le_zero.mp h)
    subst hbs; rfl
  | succ n ih =>
    intro bs h
    cases bs with
    | nil => rfl
    | cons x xs =>
      show List.take 1024 (x :: xs) ++ (chunksOfAux n (List.drop 1024 (x :: xs))).flatten
          = x :: xs
      rw [ih (List.drop 1024 (x :: xs))
        (by simp only [List.length_drop, List.length_cons] at h ⊢; omega)]
      exact List.take_append_drop 1024 (x :: xs)

lemma chunksOfAux_chunk_le : ∀ (fuel : Nat) (bs c : List Nat),
    c ∈ chunksOfAux fuel bs → c.length ≤ 1024 := by
  intro fuel
  induction fuel with
  | zero => intro bs c hc; simp [chunksOfAux] at hc
  | succ n ih =>
    intro bs c hc
    cases bs with
    | nil => simp [chunksOfAux] at hc
    | cons x xs =>
      have hc' : c ∈ List.take 1024 (x :: xs) :: chunksOfAux n (List.drop 1024 (x :: xs)) := hc
      rcases List.mem_cons.mp hc' with rfl | hmem
      · simp
      · exact ih _ c hmem

lemma chunksOfAux_count : ∀ (fuel : Nat) (bs : List Nat), bs.length ≤ fuel → bs ≠ [] →
    (chunksOfAux fuel bs).length = (bs.length + 1023) / 1024 := by
  intro fuel
  induction fuel with
  | zero =>
    intro bs h hne
    exact absurd (List.eq_nil_of_length_eq_zero (Nat.le_zero.mp h)) hne
  | succ n ih =>
    intro bs h hne
    cases bs with
    | nil => exact absurd rfl hne
    | cons x xs =>
      show (List.take 1024 (x :: xs) :: chunksOfAux n (List.drop 1024 (x :: xs))).length = _
      by_cases hd : List.drop 1024 (x :: xs) = []
      · rw [hd, chunksOfAux_nil]
        have hlen : (x :: xs).length ≤ 1024 := List.drop_eq_nil_iff.mp hd
        simp only [List.length_cons, List.length_nil] at hlen ⊢
        omega
      · have hlen : ¬ (x :: xs).length ≤ 1024 := fun hc => hd (List.drop_eq_nil_iff.mpr hc)
        rw [List.length_cons, ih (List.drop 1024 (x :: xs))
          (by simp only [List.length_drop, List.length_cons] at h ⊢; omega) hd]
        simp only [List.length_drop, List.length_cons] at hlen ⊢
        omega

lemma chunksOf_flatten (bs : List Nat) : (chunksOf bs).flatten = bs :=
  chunksOfAux_flatten bs.length bs (le_refl _)

lemma chunksOf_chunk_le (bs c : List Nat) (h : c ∈ chunksOf bs) : c.length ≤ 1024 :=
  chunksOfAux_chunk_le bs.length bs c h

lemma chunksOf_count (bs : List Nat) (h : bs ≠ []) :
    (chunksOf bs).length = (bs.length + 1023) / 1024 :=
  chunksOfAux_count bs.length bs (le_refl _) h

/-! ## Properties of the corruption tail -/

lemma corruptOutcome_result_not_ok (env : ReadEnv) (B out : List Nat) :
    (corruptOutcome env B).result ≠ Except.ok out := by
  unfold corruptOutcome
  by_cases hv : (env.verify || env.quiet) = true <;> simp [hv]

lemma corruptOutcome_spec (env : ReadEnv) (B : List Nat) :
    (corruptOutcome env B).dumped = !env.quiet ∧
    (corruptOutcome env B).result =
      (if env.verify || env.quiet then .error .wtError else .error .wtPanic) ∧
    (corruptOutcome env B).dumpChunks =
      (if env.quiet then [] else chunksOf (corruptOutcome env B).finalBuf) ∧
    (corruptOutcome env B).corruptionFlag = true :=
  ⟨rfl, rfl, rfl, rfl⟩

/-! ## Claims about the block-manager read path -/

/-- C5: `__wt_block_read_off` returns success only when the recomputed
checksum — over the whole `size` when the header declares `DATA_CKSUM`, else
over the first `COMPRESS_SKIP` bytes — computed after zeroing the header
checksum field matches the expected checksum from the address cookie (which
itself must equal the header checksum field); in every other case it returns
an error. -/
theorem block_read_success_requires_checksum_match :
    ∀ (env : ReadEnv) (cksumF : List Nat → Nat) (expected size : Nat) (out : List Nat),
      (blockReadOff env cksumF expected size).result = .ok out →
      ¬ size < env.allocsize ∧
      le32get (firstReadBytes env size) 32 = expected ∧
      cksumF ((zeroHeaderChecksum (firstReadBytes env size)).take
          (checkSizeOf (firstReadBytes env size) size)) = expected ∧
      out = zeroHeaderChecksum (firstReadBytes env size) := by
  intro env cksumF expected size out h
  unfold blockReadOff at h
  by_cases h1 : size < env.allocsize
  · rw [if_pos h1] at h
    exact absurd h (by simp)
  · rw [if_neg h1] at h
    by_cases h2 : le32get (firstReadBytes env size) 32 = expected
    · rw [if_pos h2] at h
      by_cases h3 : cksumF ((zeroHeaderChecksum (firstReadBytes env size)).take
          (checkSizeOf (firstReadBytes env size) size)) = expected
      · rw [if_pos h3] at h
        simp only [Except.ok.injEq] at h
        exact ⟨h1, h2, h3, h.symm⟩
      · rw [if_neg h3] at h
        exact absurd h (corruptOutcome_result_not_ok env _ out)
    · rw [if_neg h2] at h
      exact absurd h (corruptOutcome_result_not_ok env _ out)

theorem block_read_success_requires_checksum_match_witness :
    (blockReadOff cleanReadEnv listSum 0 70).result =
        .ok (zeroHeaderChecksum (firstReadBytes cleanReadEnv 70)) ∧
    (¬ (70 : Nat) < cleanReadEnv.allocsize ∧
      le32get (firstReadBytes cleanReadEnv 70) 32 = 0 ∧
      listSum ((zeroHeaderChecksum (firstReadBytes cleanReadEnv 70)).take
          (checkSizeOf (firstReadBytes cleanReadEnv 70) 70)) = 0 ∧
      zeroHeaderChecksum (firstReadBytes cleanReadEnv 70) =
        zeroHeaderChecksum (firstReadBytes cleanReadEnv 70)) :=
  ⟨by rfl,
    block_read_success_requires_checksum_match cleanReadEnv listSum 0 70
      (zeroHeaderChecksum (firstReadBytes cleanReadEnv 70)) (by rfl)⟩

/-- C6 (code evaluation): with the chunk cache serving stale bytes whose
header checksum matches but whose recomputed checksum does not, the code
evicts the entry and re-reads, yet returns a fatal corruption without
re-verifying — even though the very same disk bytes verify successfully on a
chunk-cache miss, and the retried buffer equals those valid bytes. -/
theorem chunkcache_retry_not_reverified :
    (blockReadOff staleChunkEnv listSum 0 70).result = .error .wtPanic ∧
    (blockReadOff staleChunkEnv listSum 0 70).corruptionFlag = true ∧
    (blockReadOff freshChunkEnv listSum 0 70).result =
      .ok (zeroHeaderChecksum (firstReadBytes freshChunkEnv 70)) ∧
    staleChunkEnv.diskBytes = freshChunkEnv.diskBytes ∧
    retryBuf staleChunkEnv 70 = firstReadBytes freshChunkEnv 70 :=
  ⟨by rfl, by rfl, by rfl, by rfl, by rfl⟩

/-- C7 (counterexample): a corrupt read under the session's quiet-corruption
flag sets the connection-wide flag and returns the recoverable error, but
emits no dump — contradicting the claim that every corruption emits the
structured dump. -/
theorem corruption_dump_skipped_when_quiet :
    (blockReadOff quietCorruptEnv listSum 0 70).corruptionFlag = true ∧
    (blockReadOff quietCorruptEnv listSum 0 70).result = .error .wtError ∧
    (blockReadOff quietCorruptEnv listSum 0 70).dumped = false :=
  ⟨by rfl, by rfl, by rfl⟩

/-- C7 (amended): on corruption the connection-wide data-corruption flag is
set, the structured 1 KiB-chunk dump is emitted iff the session did not
request quiet corruption, and the call returns the recoverable error iff the
block is in verify mode or the session requested quiet corruption, else the
fatal panic; the dump splits the final buffer into chunks of at most 1024
bytes whose concatenation is the buffer, `⌈size/1024⌉` chunks in all. -/
theorem corruption_path_behavior :
    (∀ (env : ReadEnv) (cksumF : List Nat → Nat) (expected size : Nat),
        (blockReadOff env cksumF expected size).corruptionFlag = true →
        ((blockReadOff env cksumF expected size).dumped = !env.quiet ∧
          (blockReadOff env cksumF expected size).result =
            (if env.verify || env.quiet then .error .wtError else .error .wtPanic) ∧
          (blockReadOff env cksumF expected size).dumpChunks =
            (if env.quiet then []
             else chunksOf (blockReadOff env cksumF expected size).finalBuf))) ∧
    (∀ bs : List Nat,
        (chunksOf bs).flatten = bs ∧
        (∀ c ∈ chunksOf bs, c.length ≤ 1024) ∧
        (bs ≠ [] → (chunksOf bs).length = (bs.length + 1023) / 1024)) := by
  constructor
  · intro env cksumF expected size h
    unfold blockReadOff at h ⊢
    by_cases h1 : size < env.allocsize
    · rw [if_pos h1] at h
      exact absurd h (by simp)
    · rw [if_neg h1] at h ⊢
      by_cases h2 : le32get (firstReadBytes env size) 32 = expected
      · rw [if_pos h2] at h ⊢
        by_cases h3 : cksumF ((zeroHeaderChecksum (firstReadBytes env size)).take
            (checkSizeOf (firstReadBytes env size) size)) = expected
        · rw [if_pos h3] at h
          exact absurd h (by simp)
        · rw [if_neg h3]
          exact ⟨(corruptOutcome_spec env _).1, (corruptOutcome_spec env _).2.1,
            (corruptOutcome_spec env _).2.2.1⟩
      · rw [if_neg h2]
        exact ⟨(corruptOutcome_spec env _).1, (corruptOutcome_spec env _).2.1,
          (corruptOutcome_spec env _).2.2.1⟩
  · intro bs
    exact ⟨chunksOf_flatten bs, fun c hc => chunksOf_chunk_le bs c hc,
      fun h => chunksOf_count bs h⟩

theorem corruption_path_behavior_witness :
    ((blockReadOff loudCorruptEnv listSum 0 70).corruptionFlag = true ∧
      ((blockReadOff loudCorruptEnv listSum 0 70).dumped = !loudCorruptEnv.quiet ∧
        (blockReadOff loudCorruptEnv listSum 0 70).result =
          (if loudCorruptEnv.verify || loudCorruptEnv.quiet
           then .error .wtError else .error .wtPanic) ∧
        (blockReadOff loudCorruptEnv listSum 0 70).dumpChunks =
          (if loudCorruptEnv.quiet then []
           else chunksOf (blockReadOff loudCorruptEnv listSum 0 70).finalBuf))) ∧
    (([5] : List Nat) ≠ [] ∧
      ((chunksOf [5]).flatten = [5] ∧
        (∀ c ∈ chunksOf [5], c.length ≤ 1024) ∧
        (([5] : List Nat) ≠ [] → (chunksOf [5]).length = (([5] : List Nat).length + 1023) / 1024))) :=
  ⟨⟨by rfl, corruption_path_behavior.1 loudCorruptEnv listSum 0 70 (by rfl)⟩,
    ⟨by decide, corruption_path_behavior.2 [5]⟩⟩

/-! ## Properties of the batch walk loop -/

lemma walkLoop_stop (m c : Nat) (steps : List StepRes) (acc : List (Nat × Nat)) (h : m ≤ c) :
    walkLoop m c steps acc = .ok (acc.reverse, c) := by
  rw [walkLoop.eq_def, if_pos h]

lemma walkLoop_nil (m c : Nat) (acc : List (Nat × Nat)) (h : ¬ m ≤ c) :
    walkLoop m c [] acc = .ok (acc.reverse, c) := by
  rw [walkLoop.eq_def, if_neg h]

lemma walkLoop_cons_ok (m c : Nat) (ck : Bool) (k v : Nat) (rest : List StepRes)
    (acc : List (Nat × Nat)) (h : ¬ m ≤ c) :
    walkLoop m c (.ok ck k v :: rest) acc = walkLoop m (c + 1) rest ((k, v) :: acc) := by
  conv_lhs => rw [walkLoop.eq_def]
  rw [if_neg h]

lemma walkLoop_cons_fail_clean (m c : Nat) (cc : Int) (rest : List StepRes)
    (acc : List (Nat × Nat)) (h : ¬ m ≤ c)
    (hc : cc = WT_NOTFOUND ∨ cc = WT_PREPARE_CONFLICT) :
    walkLoop m c (.fail cc :: rest) acc = .ok (acc.reverse, c) := by
  rw [walkLoop.eq_def, if_neg h]
  simp only [if_pos hc]

lemma walkLoop_cons_fail_err (m c : Nat) (cc : Int) (rest : List StepRes)
    (acc : List (Nat × Nat)) (h : ¬ m ≤ c)
    (hc : ¬ (cc = WT_NOTFOUND ∨ cc = WT_PREPARE_CONFLICT)) :
    walkLoop m c (.fail cc :: rest) acc = .error cc := by
  rw [walkLoop.eq_def, if_neg h]
  simp only [if_neg hc]

lemma walkLoop_ok_spec :
    ∀ (steps : List StepRes) (m count : Nat) (acc pairs : List (Nat × Nat)) (n : Nat),
      count ≤ m → acc.length = count →
      walkLoop m count steps acc = .ok (pairs, n) →
      n ≤ m ∧ pairs.length = n := by
  intro steps
  induction steps with
  | nil =>
    intro m count acc pairs n hcnt hlen h
    by_cases hm : m ≤ count
    · rw [walkLoop_stop m count _ acc hm] at h
      obtain ⟨h1, h2⟩ := by simpa using h
      subst h1; subst h2
      simp [hlen, hcnt]
    · rw [walkLoop_nil m count acc hm] at h
      obtain ⟨h1, h2⟩ := by simpa using h
      subst h1; subst h2
      simp [hlen, hcnt]
  | cons s rest ih =>
    intro m count acc pairs n hcnt hlen h
    by_cases hm : m ≤ count
    · rw [walkLoop_stop m count _ acc hm] at h
      obtain ⟨h1, h2⟩ := by simpa using h
      subst h1; subst h2
      simp [hlen, hcnt]
    · cases s with
      | ok ck k v =>
        rw [walkLoop_cons_ok m count ck k v rest acc hm] at h
        exact ih m (count + 1) ((k, v) :: acc) pairs n
          (Nat.succ_le_of_lt (Nat.lt_of_not_le hm)) (by simp [hlen]) h
      | fail cc =>
        by_cases hc : cc = WT_NOTFOUND ∨ cc = WT_PREPARE_CONFLICT
        · rw [walkLoop_cons_fail_clean m count cc rest acc hm hc] at h
          obtain ⟨h1, h2⟩ := by simpa using h
          subst h1; subst h2
          simp [hlen, hcnt]
        · rw [walkLoop_cons_fail_err m count cc rest acc hm hc] at h
          exact absurd h (by simp)

lemma walkLoop_all_ok_clean :
    ∀ (pre : List StepRes) (m c0 : Nat) (acc : List (Nat × Nat))
      (post : List StepRes) (cc : Int),
      (∀ s ∈ pre, ∃ ck k v, s = StepRes.ok ck k v) →
      (cc = WT_NOTFOUND ∨ cc = WT_PREPARE_CONFLICT) →
      c0 + pre.length < m →
      ∃ pairs, walkLoop m c0 (pre ++ .fail cc :: post) acc = .ok (pairs, c0 + pre.length) := by
  intro pre
  induction pre with
  | nil =>
    intro m c0 acc post cc _ hc hlt
    have hm : ¬ m ≤ c0 := by omega
    exact ⟨acc.reverse, by simpa using walkLoop_cons_fail_clean m c0 cc post acc hm hc⟩
  | cons s pre ih =>
    intro m c0 acc post cc hok hc hlt
    obtain ⟨ck, k, v, rfl⟩ := hok s (List.mem_cons_self _ _)
    have hm : ¬ m ≤ c0 := by simp at hlt ⊢; omega
    rw [List.cons_append, walkLoop_cons_ok m c0 ck k v _ acc hm]
    obtain ⟨pairs, hp⟩ := ih m (c0 + 1) ((k, v) :: acc) post cc
      (fun s hs => hok s (List.mem_cons_of_mem _ hs)) hc (by simp at hlt ⊢; omega)
    exact ⟨pairs, by rw [hp]; congr 2; simp; omega⟩

/-! ## Claims about the block cursor and the allocator -/

/-- C8: for both batch walks, a successful call yields `n ≤ MAX_BLOCK_ITEM`
pairs (any positive bound), exactly `n` of them; an intra-page
`WT_NOTFOUND`/`WT_PREPARE_CONFLICT` after the first advance ends the batch
cleanly with `n` equal to the pairs produced so far; and any failure of the
first advance propagates as the call's return value. -/
theorem raw_n_batch_contract :
    (∀ (maxItems : Nat) (first : StepRes) (steps : List StepRes)
        (pairs : List (Nat × Nat)) (n : Nat),
        1 ≤ maxItems →
        (nextRawNWalk maxItems first steps = .ok (pairs, n) ∨
          prevRawNWalk maxItems first steps = .ok (pairs, n)) →
        n ≤ maxItems ∧ pairs.length = n) ∧
    (∀ (maxItems : Nat) (ck : Bool) (k v : Nat) (pre post : List StepRes) (c : Int),
        (∀ s ∈ pre, ∃ ck' k' v', s = StepRes.ok ck' k' v') →
        (c = WT_NOTFOUND ∨ c = WT_PREPARE_CONFLICT) →
        1 + pre.length < maxItems →
        ∃ pairs,
          nextRawNWalk maxItems (.ok ck k v) (pre ++ .fail c :: post) =
              .ok (pairs, 1 + pre.length) ∧
            prevRawNWalk maxItems (.ok ck k v) (pre ++ .fail c :: post) =
              .ok (pairs, 1 + pre.length) ∧
            pairs.length = 1 + pre.length) ∧
    (∀ (maxItems : Nat) (c : Int) (steps : List StepRes),
        nextRawNWalk maxItems (.fail c) steps = .error c ∧
        prevRawNWalk maxItems (.fail c) steps = .error c) := by
  refine ⟨?_, ?_, ?_⟩
  · intro m first steps pairs n h1 hok
    cases first with
    | ok ck k v =>
      have h : walkLoop m 1 steps [(k, v)] = .ok (pairs, n) := by
        rcases hok with h | h <;> simpa [nextRawNWalk, prevRawNWalk] using h
      exact walkLoop_ok_spec steps m 1 [(k, v)] pairs n h1 (by simp) h
    | fail c =>
      rcases hok with h | h <;> simp [nextRawNWalk, prevRawNWalk] at h
  · intro m ck k v pre post c hpre hc hlt
    obtain ⟨pairs, hp⟩ := walkLoop_all_ok_clean pre m 1 [(k, v)] post c hpre hc hlt
    refine ⟨pairs, by simpa [nextRawNWalk] using hp, by simpa [prevRawNWalk] using hp, ?_⟩
    exact (walkLoop_ok_spec _ m 1 [(k, v)] pairs (1 + pre.length)
      (by omega) (by simp) hp).2
  · intro m c steps
    exact ⟨rfl, rfl⟩

theorem raw_n_batch_contract_witness :
    ((1 : Nat) ≤ 4 ∧
      nextRawNWalk 4 (.ok true 1 10) [StepRes.ok true 2 20, .fail WT_NOTFOUND] =
        .ok ([(1, 10), (2, 20)], 2) ∧
      ((2 : Nat) ≤ 4 ∧ ([((1 : Nat), (10 : Nat)), (2, 20)]).length = 2)) ∧
    ((∀ s ∈ [StepRes.ok true 2 20], ∃ ck' k' v', s = StepRes.ok ck' k' v') ∧
      1 + ([StepRes.ok true 2 20]).length < 4 ∧
      (∃ pairs,
        nextRawNWalk 4 (.ok true 1 10)
            ([StepRes.ok true 2 20] ++ .fail WT_NOTFOUND :: []) =
          .ok (pairs, 1 + ([StepRes.ok true 2 20]).length) ∧
        prevRawNWalk 4 (.ok true 1 10)
            ([StepRes.ok true 2 20] ++ .fail WT_NOTFOUND :: []) =
          .ok (pairs, 1 + ([StepRes.ok true 2 20]).length) ∧
        pairs.length = 1 + ([StepRes.ok true 2 20]).length)) ∧
    (nextRawNWalk 4 (.fail (-5)) [] = .error (-5) ∧
      prevRawNWalk 4 (.fail (-5)) [] = .error (-5)) :=
  ⟨⟨by decide, by rfl,
      raw_n_batch_contract.1 4 (.ok true 1 10)
        [StepRes.ok true 2 20, .fail WT_NOTFOUND] [(1, 10), (2, 20)] 2
        (by decide) (Or.inl (by rfl))⟩,
    ⟨fun s hs => by
        rw [List.mem_singleton] at hs
        exact ⟨true, 2, 20, hs⟩,
      by decide,
      raw_n_batch_contract.2.1 4 true 1 10 [StepRes.ok true 2 20] [] WT_NOTFOUND
        (fun s hs => by
          rw [List.mem_singleton] at hs
          exact ⟨true, 2, 20, hs⟩)
        (Or.inl rfl) (by decide)⟩,
    raw_n_batch_contract.2.2 4 (-5) []⟩

/-- C9: with `create(region_size := 4096, region_count := 128)`,
`alloc_page(1000)` followed by `free_page` round-trips: after the allocation
`region_count` is 1 and the region's low-order bitmap byte is `0xfe`; after
the free `region_count` is back to 0 and the byte back to `0xff`. -/
theorem alloc_page_free_page_round_trip :
    allocRoundTrip = .ok (1, 0xfe, 0, 0xff) := by rfl

theorem prepare_at_or_below_stable_aborts_witness :
    findTxn activeDB 0 = some activeT ∧ activeT.state = .active ∧
    activeT.writes ≠ [] ∧ (60 : Timestamp) ≤ activeDB.stable ∧
    (prepareTxn activeDB 0 60 = .error .wiredtigerAbort ∧
      (rollbackTxn activeDB 0).isOk = true) :=
  ⟨by rfl, by rfl, by decide, by decide,
    prepare_at_or_below_stable_aborts.1 activeDB 0 activeT 60 (by rfl) (by rfl)
      (by decide) (by decide)⟩

end WT
